import Mathlib

/-!
Shallow embedding of the redox kernel process-supervision channel
(src/kernel/schemes/supervisor.rs): the `SupervisorResource` attach
protocol (`SupervisorResource::new`) and its byte-oriented `read`/`write`
operations over a pair of `WaitQueue`s linked by Arc/Weak references.

Modelling conventions:
- Bytes are `Nat`; `read`/`write` only ever copy them, so no wrap-around
  arithmetic occurs.
- The Arc heap of `WaitQueue` allocations is a list indexed by allocation
  order; each cell records its Arc strong count and pending packets.
- A `read` returns `Option (...)`: `none` models the call blocking in
  `WaitQueue::receive` (suspended, never returning); `some` is a call that
  returns, carrying the post-state, the final buffer contents and the
  `Result` value.
- Fallible operations return an `Except Nat` value alongside the
  (possibly unchanged) kernel state, so unchanged-state claims are real
  statements about the embedded code.
-/

/-- Error number EPERM from system::error (OperationNotPermitted). -/
def EPERM : Nat := 1

/-- Error number ESRCH from system::error (no such process). -/
def ESRCH : Nat := 3

/-- Error number EACCES from system::error (AccessDenied). -/
def EACCES : Nat := 13

/-- Error number EEXIST from system::error (AlreadyExists). -/
def EEXIST : Nat := 17

/-- Error number EINVAL from system::error (InvalidArgument). -/
def EINVAL : Nat := 22

/-- Error number EPIPE from system::error (BrokenPipe). -/
def EPIPE : Nat := 32

/-- Modelled from the spec: `system::scheme::Packet` is external to src/;
the spec fixes it as a fixed-size, zero-initializable, byte-copyable block
of `PACKET_SIZE` bytes whose contents the core treats as opaque. The
concrete value is opaque to the core; 40 bytes (five machine words). -/
def PACKET_SIZE : Nat := 40

/-- A packet travels through the channel as a plain byte list; packets
built by `write` always have length `PACKET_SIZE`. -/
abbrev Packet := List Nat

/-- Modelled from the spec: `sync::WaitQueue` is external to src/; the spec
fixes it as an unbounded FIFO with non-blocking `send` (append at tail) and
blocking `receive` (remove at head). One heap cell: the Arc strong count of
the allocation and the pending items. `strong = 0` means the allocation has
been freed and its pending items discarded. -/
structure WaitQueue where
  strong : Nat
  items : List Packet
deriving DecidableEq

/-- Apply `f` to the heap cell at index `i` (no-op when out of range). -/
def modifyQ (h : List WaitQueue) (i : Nat) (f : WaitQueue → WaitQueue) :
    List WaitQueue :=
  match h, i with
  | [], _ => []
  | q :: t, 0 => f q :: t
  | q :: t, n + 1 => q :: modifyQ t n f

/-- `Arc::new(WaitQueue::new())`: allocate a fresh empty queue with strong
count 1; returns the new heap and the allocation's index. -/
def arcNew (h : List WaitQueue) : List WaitQueue × Nat :=
  (h ++ [⟨1, []⟩], h.length)

/-- `Arc::clone` (also a successful `Weak::upgrade`): one more strong
reference to allocation `i`. -/
def arcClone (h : List WaitQueue) (i : Nat) : List WaitQueue :=
  modifyQ h i (fun q => ⟨q.strong + 1, q.items⟩)

/-- Dropping a strong Arc reference to allocation `i`; when the last strong
reference goes, the allocation is freed and pending packets are discarded. -/
def arcDropStrong (h : List WaitQueue) (i : Nat) : List WaitQueue :=
  modifyQ h i (fun q => if q.strong ≤ 1 then ⟨0, []⟩ else ⟨q.strong - 1, q.items⟩)

/-- `Weak::upgrade` on allocation `i` succeeds exactly when the allocation
still has a strong owner. -/
def upgradeOk (h : List WaitQueue) (i : Nat) : Bool :=
  match h[i]? with
  | some q => decide (0 < q.strong)
  | none => false

/-- Modelled from the spec: `WaitQueue::send` appends at the tail and never
blocks. -/
def sendQ (h : List WaitQueue) (i : Nat) (p : Packet) : List WaitQueue :=
  modifyQ h i (fun q => ⟨q.strong, q.items ++ [p]⟩)

/-- Modelled from the spec: `WaitQueue::receive` blocks until an item is
available, then removes and returns the head item (FIFO). `none` = the
call would block (queue empty or freed). -/
def receiveQ (h : List WaitQueue) (i : Nat) :
    Option (Packet × List WaitQueue) :=
  match h[i]? with
  | some q =>
    match q.items with
    | [] => none
    | p :: rest => some (p, modifyQ h i (fun q2 => ⟨q2.strong, rest⟩))
  | none => none

/-- The byte-copy loop `for (b, p) in dst.iter_mut().zip(src.iter())
\x7b *b = *p \x7d`: overwrite the first `min |dst| |src|` bytes of `dst`
with those of `src`, keeping the rest of `dst`. -/
def copyInto (dst src : List Nat) : List Nat :=
  List.zipWith (fun _ p => p) dst src ++ dst.drop src.length

/-- One endpoint of the supervision channel (struct SupervisorResource):
`recv` is the heap index of the queue this endpoint holds a STRONG Arc
reference to and reads from; `send` is the heap index of the queue this
endpoint holds only a WEAK reference to and writes to. -/
structure SupervisorResource where
  recv : Nat
  send : Nat
deriving DecidableEq

/-- The fields of a process-table context consumed by the core:
`pid`, `ppid`, the `supervised` opt-in flag and the installed
`supervised_resource` endpoint (at most one). -/
structure Context where
  pid : Nat
  ppid : Nat
  supervised : Bool
  supervised_resource : Option SupervisorResource
deriving DecidableEq

/-- Kernel state visible to the core: the Arc heap of queue allocations,
the process table, and the index of the currently running context. -/
structure Kernel where
  queues : List WaitQueue
  contexts : List Context
  curIdx : Option Nat
deriving DecidableEq

/-- Modelled from the spec: `contexts.current()` resolves the calling
context; a lookup failure is propagated unchanged (ESRCH here). -/
def Kernel.currentCtx (k : Kernel) : Except Nat Context :=
  match k.curIdx with
  | some i =>
    match k.contexts[i]? with
    | some c => Except.ok c
    | none => Except.error ESRCH
  | none => Except.error ESRCH

/-- Modelled from the spec: `contexts.find_mut(pid)` locates the context
with the given pid; returns its table index and value. -/
def findCtx : List Context → Nat → Option (Nat × Context)
  | [], _ => none
  | c :: t, pid =>
    if c.pid = pid then some (0, c)
    else
      match findCtx t pid with
      | some (i, c2) => some (i + 1, c2)
      | none => none

/-- `SupervisorResource::new(pid)`: the attach protocol. Under the process
table lock: resolve the caller, find the target, check `supervised`, check
parenthood, check exclusivity; on success allocate the request and response
queues, install the cross-wired endpoint `⟨recv := response (strong),
send := weak request⟩` into the target and return `⟨recv := request
(strong), send := weak response⟩`. The local Arcs `request`/`response` are
cloned into the endpoints and dropped at end of scope. Returns the new
kernel state and the `Result`. -/
def SupervisorResource.new (k : Kernel) (pid : Nat) :
    Kernel × Except Nat SupervisorResource :=
  match k.currentCtx with
  | Except.error e => (k, Except.error e)
  | Except.ok cur =>
    match findCtx k.contexts pid with
    | none => (k, Except.error ESRCH)
    | some (j, ctx) =>
      if ctx.supervised then
        if ctx.ppid ≠ cur.pid then
          (k, Except.error EACCES)
        else if ctx.supervised_resource.isSome then
          (k, Except.error EEXIST)
        else
          let a1 := arcNew k.queues
          let h1 := a1.1
          let request := a1.2
          let a2 := arcNew h1
          let h2 := a2.1
          let response := a2.2
          let h3 := arcClone h2 response
          let cs := k.contexts.set j
            { ctx with supervised_resource := some ⟨response, request⟩ }
          let h4 := arcClone h3 request
          let h5 := arcDropStrong h4 request
          let h6 := arcDropStrong h5 response
          ({ queues := h6, contexts := cs, curIdx := k.curIdx },
            Except.ok ⟨request, response⟩)
      else
        (k, Except.error EPERM)

/-- `SupervisorResource::read(buf)`: if the buffer is not packet-sized,
EINVAL with no effect; otherwise block on the strong recv queue's
`receive()` (`none` = blocked), then copy the packet into the buffer and
return `PACKET_SIZE`. -/
def SupervisorResource.read (k : Kernel) (r : SupervisorResource)
    (buf : List Nat) : Option (Kernel × List Nat × Except Nat Nat) :=
  if buf.length = PACKET_SIZE then
    match receiveQ k.queues r.recv with
    | none => none
    | some (packet, h) =>
      some ({ k with queues := h }, copyInto buf packet,
        Except.ok PACKET_SIZE)
  else
    some (k, buf, Except.error EINVAL)

/-- `SupervisorResource::write(buf)`: if the buffer is not packet-sized,
EINVAL with no effect; otherwise try to upgrade the weak send reference —
on failure EPIPE with no effect, on success build a zero-initialized
packet, copy the buffer into it, send it, drop the temporary strong
reference and return `PACKET_SIZE`. Never blocks. -/
def SupervisorResource.write (k : Kernel) (r : SupervisorResource)
    (buf : List Nat) : Kernel × Except Nat Nat :=
  if buf.length = PACKET_SIZE then
    if upgradeOk k.queues r.send then
      let packet := copyInto (List.replicate PACKET_SIZE 0) buf
      let h1 := arcClone k.queues r.send
      let h2 := sendQ h1 r.send packet
      let h3 := arcDropStrong h2 r.send
      ({ k with queues := h3 }, Except.ok PACKET_SIZE)
    else
      (k, Except.error EPIPE)
  else
    (k, Except.error EINVAL)

/-- Dropping a `SupervisorResource` (Rust `Drop` of the box) releases its
strong `recv` Arc reference; the weak `send` reference does not keep the
peer queue alive and its drop has no effect on strong counts. -/
def SupervisorResource.dropEnd (k : Kernel) (r : SupervisorResource) :
    Kernel :=
  { k with queues := arcDropStrong k.queues r.recv }

/-- Every packet pending in a queue was built by `write`, hence is exactly
`PACKET_SIZE` bytes; a freed queue holds no packets. -/
def QueueWF (q : WaitQueue) : Prop :=
  (∀ p ∈ q.items, p.length = PACKET_SIZE) ∧ (q.strong = 0 → q.items = [])

/-- Well-formedness of a kernel state reachable through the core's
operations: every queue allocation is well-formed. -/
def KernelWF (k : Kernel) : Prop :=
  ∀ q ∈ k.queues, QueueWF q

/-! ### Helper lemmas -/

theorem copyInto_eq_of_len (dst src : List Nat)
    (h : dst.length = src.length) : copyInto dst src = src := by
  induction dst generalizing src with
  | nil =>
    cases src with
    | nil => rfl
    | cons b s => simp at h
  | cons a t ih =>
    cases src with
    | nil => simp at h
    | cons b s =>
      simp only [List.length_cons, Nat.succ.injEq] at h
      simp only [copyInto, List.zipWith, List.length_cons, List.drop_succ_cons,
        List.cons_append]
      have := ih s h
      simp only [copyInto] at this
      rw [this]

theorem modifyQ_get_same (h : List WaitQueue) (i : Nat)
    (f : WaitQueue → WaitQueue) :
    (modifyQ h i f)[i]? = h[i]?.map f := by
  induction h generalizing i with
  | nil => simp [modifyQ]
  | cons q t ih =>
    cases i with
    | zero => simp [modifyQ]
    | succ n => simpa [modifyQ] using ih n

theorem modifyQ_congr (h : List WaitQueue) (i : Nat) (q : WaitQueue)
    (f g : WaitQueue → WaitQueue)
    (hq : h[i]? = some q) (hfg : f q = g q) :
    modifyQ h i f = modifyQ h i g := by
  induction h generalizing i with
  | nil => simp [modifyQ]
  | cons x t ih =>
    cases i with
    | zero =>
      simp only [List.getElem?_cons_zero, Option.some.injEq] at hq
      subst hq
      simp [modifyQ, hfg]
    | succ n =>
      simp only [List.getElem?_cons_succ] at hq
      simp [modifyQ, ih n hq]

theorem modifyQ_comp (h : List WaitQueue) (i : Nat)
    (f g : WaitQueue → WaitQueue) :
    modifyQ (modifyQ h i f) i g = modifyQ h i (fun q => g (f q)) := by
  induction h generalizing i with
  | nil => simp [modifyQ]
  | cons x t ih =>
    cases i with
    | zero => simp [modifyQ]
    | succ n => simp [modifyQ, ih n]

theorem modifyQ_append_fst (h : List WaitQueue) (a b : WaitQueue)
    (f : WaitQueue → WaitQueue) :
    modifyQ (h ++ [a, b]) h.length f = h ++ [f a, b] := by
  induction h with
  | nil => rfl
  | cons x t ih => simp [modifyQ, ih]

theorem modifyQ_append_snd (h : List WaitQueue) (a b : WaitQueue)
    (f : WaitQueue → WaitQueue) :
    modifyQ (h ++ [a, b]) (h.length + 1) f = h ++ [a, f b] := by
  induction h with
  | nil => rfl
  | cons x t ih => simp [modifyQ, ih]

/-- Net heap effect of a successful write: one packet appended at the send
queue, strong counts restored (the upgrade's temporary strong reference is
dropped again). -/
theorem write_ok_heap (k : Kernel) (r : SupervisorResource) (buf : List Nat)
    (q : WaitQueue)
    (hlen : buf.length = PACKET_SIZE)
    (hq : k.queues[r.send]? = some q) (hs : 0 < q.strong) :
    SupervisorResource.write k r buf =
      ({ k with queues := modifyQ k.queues r.send (fun q2 => ⟨q2.strong, q2.items ++ [buf]⟩) },
        Except.ok PACKET_SIZE) := by
  have hup : upgradeOk k.queues r.send = true := by
    simp [upgradeOk, hq, hs]
  have hpkt : copyInto (List.replicate PACKET_SIZE 0) buf = buf :=
    copyInto_eq_of_len _ _ (by simp [hlen])
  simp only [SupervisorResource.write, hlen, if_true, hup, hpkt, arcClone,
    sendQ, arcDropStrong, modifyQ_comp, if_pos, Prod.mk.injEq]
  constructor
  · congr 1
    apply modifyQ_congr _ _ q _ _ hq
    have h1 : ¬ q.strong + 1 ≤ 1 := by omega
    simp [h1]
  · trivial

/-- A read on a packet-sized buffer with a pending well-sized packet
returns that packet, popped from the head of the recv queue. -/
theorem read_ok_of (k : Kernel) (r : SupervisorResource) (buf p : List Nat)
    (q : WaitQueue) (rest : List Packet)
    (hlen : buf.length = PACKET_SIZE)
    (hq : k.queues[r.recv]? = some q) (hitems : q.items = p :: rest)
    (hp : p.length = PACKET_SIZE) :
    SupervisorResource.read k r buf =
      some ({ k with queues := modifyQ k.queues r.recv (fun q2 => ⟨q2.strong, rest⟩) }, p, Except.ok PACKET_SIZE) := by
  have hcopy : copyInto buf p = p :=
    copyInto_eq_of_len _ _ (by rw [hlen, hp])
  simp [SupervisorResource.read, hlen, receiveQ, hq, hitems, hcopy]

/-! ### Claim theorems -/

/-- C3: every attach call that returns an error (current-context resolution
failure, target not found, not supervised, caller not parent, or supervisor
already present) leaves the process table and queue heap unchanged: no
partial allocation is committed. -/
theorem claim3_attach_error_state_unchanged (k : Kernel) (pid e : Nat)
    (herr : (SupervisorResource.new k pid).2 = Except.error e) :
    (SupervisorResource.new k pid).1 = k := by
  unfold SupervisorResource.new at herr ⊢
  cases hc : k.currentCtx with
  | error e2 => simp [hc]
  | ok cur =>
    simp only [hc] at herr ⊢
    cases hf : findCtx k.contexts pid with
    | none => simp [hf]
    | some jc =>
      obtain ⟨j, ctx⟩ := jc
      simp only [hf] at herr ⊢
      by_cases hsup : ctx.supervised = true
      · simp only [hsup, if_true] at herr ⊢
        by_cases hp : ctx.ppid ≠ cur.pid
        · simp [hp]
        · simp only [hp, if_false] at herr ⊢
          by_cases hr : ctx.supervised_resource.isSome
          · simp [hr]
          · simp [hr] at herr
      · simp [hsup]

/-- C3 witness: attach with an unresolvable current context fails and
leaves the (empty) kernel state untouched. -/
theorem claim3_attach_error_state_unchanged_witness :
    (SupervisorResource.new ⟨[], [], none⟩ 5).2 = Except.error ESRCH ∧
    (SupervisorResource.new ⟨[], [], none⟩ 5).1 = (⟨[], [], none⟩ : Kernel) :=
  ⟨rfl, claim3_attach_error_state_unchanged _ 5 ESRCH rfl⟩

/-- C4: attaching to an existing context whose supervised flag is false
fails with EPERM and changes nothing, regardless of the caller's identity
and of any installed supervised_resource. -/
theorem claim4_unsupervised_eperm (k : Kernel) (pid : Nat) (cur : Context)
    (j : Nat) (ctx : Context)
    (hcur : k.currentCtx = Except.ok cur)
    (hfind : findCtx k.contexts pid = some (j, ctx))
    (hsup : ctx.supervised = false) :
    SupervisorResource.new k pid = (k, Except.error EPERM) := by
  simp [SupervisorResource.new, hcur, hfind, hsup]

/-- C4 witness: the caller IS the target's parent and a resource is even
already installed, yet supervised = false still yields EPERM. -/
theorem claim4_unsupervised_eperm_witness :
    SupervisorResource.new
      ⟨[], [⟨1, 0, false, none⟩, ⟨2, 1, false, some ⟨0, 1⟩⟩], some 0⟩ 2 =
      (⟨[], [⟨1, 0, false, none⟩, ⟨2, 1, false, some ⟨0, 1⟩⟩], some 0⟩,
        Except.error EPERM) :=
  claim4_unsupervised_eperm _ 2 _ 1 _ rfl rfl rfl

/-- C5: attaching to a supervised context whose ppid differs from the
caller's pid fails with EACCES, regardless of any installed endpoint. -/
theorem claim5_nonparent_eacces (k : Kernel) (pid : Nat) (cur : Context)
    (j : Nat) (ctx : Context)
    (hcur : k.currentCtx = Except.ok cur)
    (hfind : findCtx k.contexts pid = some (j, ctx))
    (hsup : ctx.supervised = true)
    (hppid : ctx.ppid ≠ cur.pid) :
    SupervisorResource.new k pid = (k, Except.error EACCES) := by
  simp only [SupervisorResource.new, hcur, hfind, hsup, if_true]
  rw [if_pos hppid]

/-- C5 witness: supervised target with ppid 7, caller pid 1: EACCES. -/
theorem claim5_nonparent_eacces_witness :
    SupervisorResource.new
      ⟨[], [⟨1, 0, false, none⟩, ⟨2, 7, true, none⟩], some 0⟩ 2 =
      (⟨[], [⟨1, 0, false, none⟩, ⟨2, 7, true, none⟩], some 0⟩,
        Except.error EACCES) :=
  claim5_nonparent_eacces _ 2 _ 1 _ rfl rfl rfl (by decide)

/-- C6: a second attach to a supervised child of the caller that already
has a supervisor endpoint fails with EEXIST; the table still holds the
original endpoint and the queue heap is untouched (so the original
endpoint remains usable). -/
theorem claim6_second_attach_eexist (k : Kernel) (pid : Nat) (cur : Context)
    (j : Nat) (ctx : Context) (r : SupervisorResource)
    (hcur : k.currentCtx = Except.ok cur)
    (hfind : findCtx k.contexts pid = some (j, ctx))
    (hsup : ctx.supervised = true)
    (hppid : ctx.ppid = cur.pid)
    (hres : ctx.supervised_resource = some r) :
    SupervisorResource.new k pid = (k, Except.error EEXIST) ∧
    findCtx (SupervisorResource.new k pid).1.contexts pid = some (j, ctx) ∧
    (SupervisorResource.new k pid).1.queues = k.queues := by
  have h1 : SupervisorResource.new k pid = (k, Except.error EEXIST) := by
    simp [SupervisorResource.new, hcur, hfind, hsup, hppid, hres]
  exact ⟨h1, by rw [h1]; exact hfind, by rw [h1]⟩

/-- C6 witness: second attach on a child with an installed endpoint:
EEXIST, endpoint still installed, queues unchanged. -/
theorem claim6_second_attach_eexist_witness :
    SupervisorResource.new
      ⟨[⟨1, []⟩, ⟨1, []⟩], [⟨1, 0, false, none⟩, ⟨2, 1, true, some ⟨1, 0⟩⟩], some 0⟩ 2 =
      (⟨[⟨1, []⟩, ⟨1, []⟩], [⟨1, 0, false, none⟩, ⟨2, 1, true, some ⟨1, 0⟩⟩], some 0⟩,
        Except.error EEXIST) ∧
    findCtx (SupervisorResource.new
      ⟨[⟨1, []⟩, ⟨1, []⟩], [⟨1, 0, false, none⟩, ⟨2, 1, true, some ⟨1, 0⟩⟩], some 0⟩ 2).1.contexts 2 =
      some (1, ⟨2, 1, true, some ⟨1, 0⟩⟩) ∧
    (SupervisorResource.new
      ⟨[⟨1, []⟩, ⟨1, []⟩], [⟨1, 0, false, none⟩, ⟨2, 1, true, some ⟨1, 0⟩⟩], some 0⟩ 2).1.queues =
      [⟨1, []⟩, ⟨1, []⟩] :=
  claim6_second_attach_eexist _ 2 _ 1 _ ⟨1, 0⟩ rfl rfl rfl rfl rfl

/-- C7: a read or write with a buffer whose length differs from
PACKET_SIZE returns EINVAL with no side effect: kernel state (hence every
queue) and buffer are unchanged. -/
theorem claim7_badlen_einval (k : Kernel) (r : SupervisorResource)
    (buf : List Nat) (hlen : buf.length ≠ PACKET_SIZE) :
    SupervisorResource.read k r buf = some (k, buf, Except.error EINVAL) ∧
    SupervisorResource.write k r buf = (k, Except.error EINVAL) := by
  constructor
  · simp [SupervisorResource.read, hlen]
  · simp [SupervisorResource.write, hlen]

/-- C7 witness: a 3-byte buffer gets EINVAL from both read and write, with
kernel and buffer unchanged. -/
theorem claim7_badlen_einval_witness :
    SupervisorResource.read ⟨[⟨1, []⟩], [], none⟩ ⟨0, 0⟩ [1, 2, 3] =
      some (⟨[⟨1, []⟩], [], none⟩, [1, 2, 3], Except.error EINVAL) ∧
    SupervisorResource.write ⟨[⟨1, []⟩], [], none⟩ ⟨0, 0⟩ [1, 2, 3] =
      (⟨[⟨1, []⟩], [], none⟩, Except.error EINVAL) :=
  claim7_badlen_einval _ _ _ (by decide)

/-- C1: a valid attach (target exists, supervised, child of the caller, no
endpoint installed) succeeds and establishes exactly the cross-wired pair:
two fresh queues — request at index `|queues|`, response at index
`|queues| + 1` — are allocated, each empty with exactly one strong owner;
the endpoint installed into the target reads (strong) the response queue
and writes (weak) the request queue; the returned endpoint reads (strong)
the request queue and writes (weak) the response queue. -/
theorem claim1_attach_success_crosswired (k : Kernel) (pid : Nat)
    (cur : Context) (j : Nat) (ctx : Context)
    (hcur : k.currentCtx = Except.ok cur)
    (hfind : findCtx k.contexts pid = some (j, ctx))
    (hsup : ctx.supervised = true)
    (hppid : ctx.ppid = cur.pid)
    (hres : ctx.supervised_resource = none) :
    SupervisorResource.new k pid =
      ({ queues := k.queues ++ [⟨1, []⟩, ⟨1, []⟩],
         contexts := k.contexts.set j
           { ctx with supervised_resource := some ⟨k.queues.length + 1, k.queues.length⟩ },
         curIdx := k.curIdx },
        Except.ok ⟨k.queues.length, k.queues.length + 1⟩) := by
  simp only [SupervisorResource.new, hcur, hfind, hsup, if_true, hppid,
    ne_eq, not_true_eq_false, if_false, hres, Option.isSome_none,
    Bool.false_eq_true, arcNew, arcClone, arcDropStrong]
  have hassoc : (k.queues ++ [(⟨1, []⟩ : WaitQueue)]) ++ [(⟨1, []⟩ : WaitQueue)] =
      k.queues ++ [⟨1, []⟩, ⟨1, []⟩] := by simp
  simp only [List.length_append, List.length_cons, List.length_nil, hassoc]
  rw [modifyQ_append_snd, modifyQ_append_fst, modifyQ_append_fst,
    modifyQ_append_snd]
  simp

/-- C1 witness: a concrete valid attach installs `⟨recv 1, send 0⟩` into
the target and returns `⟨recv 0, send 1⟩`, with two fresh singly-owned
empty queues. -/
theorem claim1_attach_success_crosswired_witness :
    SupervisorResource.new
      ⟨[], [⟨1, 0, false, none⟩, ⟨2, 1, true, none⟩], some 0⟩ 2 =
      (⟨[⟨1, []⟩, ⟨1, []⟩],
        [⟨1, 0, false, none⟩, ⟨2, 1, true, some ⟨1, 0⟩⟩], some 0⟩,
        Except.ok ⟨0, 1⟩) :=
  claim1_attach_success_crosswired _ 2 ⟨1, 0, false, none⟩ 1
    ⟨2, 1, true, none⟩ rfl rfl rfl rfl rfl

/-- C8: after the peer endpoint `a` (the sole strong owner of the queue
that `b` sends to) is dropped, a packet-sized write on `b` fails with
EPIPE and changes nothing: the single upgrade attempt fails, no packet is
sent, no bytes are written, and write never blocks by construction. -/
theorem claim8_write_after_drop_epipe (k : Kernel)
    (a b : SupervisorResource) (buf : List Nat) (q : WaitQueue)
    (hlen : buf.length = PACKET_SIZE)
    (hpeer : b.send = a.recv)
    (hq : k.queues[a.recv]? = some q)
    (hsole : q.strong = 1) :
    SupervisorResource.write (SupervisorResource.dropEnd k a) b buf =
      (SupervisorResource.dropEnd k a, Except.error EPIPE) := by
  have hup : upgradeOk (SupervisorResource.dropEnd k a).queues b.send = false := by
    simp [upgradeOk, SupervisorResource.dropEnd, arcDropStrong, hpeer,
      modifyQ_get_same, hq, hsole]
  simp [SupervisorResource.write, hlen, hup]

/-- A successful heap lookup yields a member of the heap. -/
theorem mem_of_heap_lookup (h : List WaitQueue) (i : Nat) (q : WaitQueue)
    (hq : h[i]? = some q) : q ∈ h := by
  induction h generalizing i with
  | nil => simp at hq
  | cons x t ih =>
    cases i with
    | zero =>
      simp only [List.getElem?_cons_zero, Option.some.injEq] at hq
      subst hq
      exact List.mem_cons_self _ _
    | succ n =>
      simp only [List.getElem?_cons_succ] at hq
      exact List.mem_cons_of_mem _ (ih n hq)

/-- A returning `receive` found its queue with the returned packet at the
head. -/
theorem receiveQ_some (h : List WaitQueue) (i : Nat) (p : Packet)
    (l : List WaitQueue) (hr : receiveQ h i = some (p, l)) :
    ∃ q rest, h[i]? = some q ∧ q.items = p :: rest := by
  cases hq : h[i]? with
  | none => simp [receiveQ, hq] at hr
  | some q =>
    cases hitems : q.items with
    | nil => simp [receiveQ, hq, hitems] at hr
    | cons p0 rest =>
      simp only [receiveQ, hq, hitems, Option.some.injEq, Prod.mk.injEq] at hr
      exact ⟨q, rest, rfl, by rw [hitems, hr.1]⟩

/-- C8 witness: endpoint `⟨0, 1⟩` solely owns queue 0; after dropping it, a
packet-sized write on the peer `⟨1, 0⟩` returns EPIPE with no state
change. -/
theorem claim8_write_after_drop_epipe_witness :
    SupervisorResource.write
      (SupervisorResource.dropEnd ⟨[⟨1, [List.replicate 40 9]⟩, ⟨1, []⟩], [], none⟩ ⟨0, 1⟩)
      ⟨1, 0⟩ (List.replicate 40 5) =
      (SupervisorResource.dropEnd ⟨[⟨1, [List.replicate 40 9]⟩, ⟨1, []⟩], [], none⟩ ⟨0, 1⟩,
        Except.error EPIPE) :=
  claim8_write_after_drop_epipe _ ⟨0, 1⟩ ⟨1, 0⟩ _ ⟨1, [List.replicate 40 9]⟩
    rfl rfl rfl rfl

/-- C2: round-trip — a packet-sized buffer written on one endpoint is read
back byte-for-byte identical by a blocking read on the peer endpoint of
the corresponding (previously empty, live) queue; stated for arbitrary
peer-wired endpoints, hence for both directions of the channel. -/
theorem claim2_roundtrip (k : Kernel) (a b : SupervisorResource)
    (buf rbuf : List Nat) (q : WaitQueue)
    (hpeer : b.send = a.recv)
    (hlen : buf.length = PACKET_SIZE) (hrlen : rbuf.length = PACKET_SIZE)
    (hq : k.queues[a.recv]? = some q) (hs : 0 < q.strong)
    (hempty : q.items = []) :
    (SupervisorResource.write k b buf).2 = Except.ok PACKET_SIZE ∧
    ∃ k2, SupervisorResource.read (SupervisorResource.write k b buf).1 a rbuf =
      some (k2, buf, Except.ok PACKET_SIZE) := by
  have hqb : k.queues[b.send]? = some q := by rw [hpeer]; exact hq
  have hw := write_ok_heap k b buf q hlen hqb hs
  rw [hw]
  constructor
  · rfl
  · exact ⟨_, read_ok_of _ a rbuf buf ⟨q.strong, [buf]⟩ [] hrlen
      (by show (modifyQ k.queues b.send fun q2 => ⟨q2.strong, q2.items ++ [buf]⟩)[a.recv]? = _
          rw [← hpeer, modifyQ_get_same, hqb]
          simp [hempty]) rfl hlen⟩

/-- C2 witness: `replicate 40 7` written on endpoint `⟨1, 0⟩` is read back
identically on the peer endpoint `⟨0, 1⟩`. -/
theorem claim2_roundtrip_witness :
    (SupervisorResource.write ⟨[⟨1, []⟩, ⟨1, []⟩], [], none⟩ ⟨1, 0⟩
      (List.replicate 40 7)).2 = Except.ok PACKET_SIZE ∧
    ∃ k2, SupervisorResource.read
      (SupervisorResource.write ⟨[⟨1, []⟩, ⟨1, []⟩], [], none⟩ ⟨1, 0⟩
        (List.replicate 40 7)).1 ⟨0, 1⟩ (List.replicate 40 0) =
      some (k2, List.replicate 40 7, Except.ok PACKET_SIZE) :=
  claim2_roundtrip _ ⟨0, 1⟩ ⟨1, 0⟩ _ _ ⟨1, []⟩ rfl rfl rfl rfl (by decide) rfl

/-- C9: FIFO within one queue — with the recv queue initially empty and
live, sending P1 then P2 makes the corresponding reads return P1 then P2;
and receive never returns without a value: the read on the empty queue
blocks (returns nothing) rather than returning. -/
theorem claim9_fifo_order_and_blocking (k : Kernel) (a b : SupervisorResource)
    (p1 p2 rbuf : List Nat) (q : WaitQueue)
    (hpeer : b.send = a.recv)
    (h1 : p1.length = PACKET_SIZE) (h2 : p2.length = PACKET_SIZE)
    (hr : rbuf.length = PACKET_SIZE)
    (hq : k.queues[a.recv]? = some q) (hs : 0 < q.strong)
    (hempty : q.items = []) :
    SupervisorResource.read k a rbuf = none ∧
    ∃ k1 k2 k3 k4,
      SupervisorResource.write k b p1 = (k1, Except.ok PACKET_SIZE) ∧
      SupervisorResource.write k1 b p2 = (k2, Except.ok PACKET_SIZE) ∧
      SupervisorResource.read k2 a rbuf = some (k3, p1, Except.ok PACKET_SIZE) ∧
      SupervisorResource.read k3 a rbuf = some (k4, p2, Except.ok PACKET_SIZE) := by
  have hqb : k.queues[b.send]? = some q := by rw [hpeer]; exact hq
  constructor
  · simp [SupervisorResource.read, hr, receiveQ, hq, hempty]
  · have hw1 := write_ok_heap k b p1 q h1 hqb hs
    have hget1 : (modifyQ k.queues b.send (fun q2 => ⟨q2.strong, q2.items ++ [p1]⟩))[b.send]? =
        some ⟨q.strong, [p1]⟩ := by
      rw [modifyQ_get_same, hqb]
      simp [hempty]
    have hw2 := write_ok_heap
      (Kernel.mk (modifyQ k.queues b.send (fun q2 => ⟨q2.strong, q2.items ++ [p1]⟩))
        k.contexts k.curIdx)
      b p2 ⟨q.strong, [p1]⟩ h2 hget1 hs
    have hget2 : (modifyQ (modifyQ k.queues b.send (fun q2 => ⟨q2.strong, q2.items ++ [p1]⟩))
        b.send (fun q2 => ⟨q2.strong, q2.items ++ [p2]⟩))[a.recv]? =
        some ⟨q.strong, [p1, p2]⟩ := by
      rw [← hpeer, modifyQ_get_same, hget1]
      rfl
    have hrd1 := read_ok_of
      (Kernel.mk (modifyQ (modifyQ k.queues b.send (fun q2 => ⟨q2.strong, q2.items ++ [p1]⟩))
          b.send (fun q2 => ⟨q2.strong, q2.items ++ [p2]⟩))
        k.contexts k.curIdx)
      a rbuf p1 ⟨q.strong, [p1, p2]⟩ [p2] hr hget2 rfl h1
    have hget3 : (modifyQ (modifyQ (modifyQ k.queues b.send (fun q2 => ⟨q2.strong, q2.items ++ [p1]⟩))
        b.send (fun q2 => ⟨q2.strong, q2.items ++ [p2]⟩)) a.recv (fun q2 => ⟨q2.strong, [p2]⟩))[a.recv]? =
        some ⟨q.strong, [p2]⟩ := by
      rw [modifyQ_get_same, hget2]
      rfl
    have hrd2 := read_ok_of
      (Kernel.mk (modifyQ (modifyQ (modifyQ k.queues b.send (fun q2 => ⟨q2.strong, q2.items ++ [p1]⟩))
          b.send (fun q2 => ⟨q2.strong, q2.items ++ [p2]⟩)) a.recv (fun q2 => ⟨q2.strong, [p2]⟩))
        k.contexts k.curIdx)
      a rbuf p2 ⟨q.strong, [p2]⟩ [] hr hget3 rfl h2
    exact ⟨_, _, _, _, hw1, hw2, hrd1, hrd2⟩

/-- C9 witness: on a concrete empty live channel, the read blocks, and
after sending `replicate 40 1` then `replicate 40 2` the reads return them
in that order. -/
theorem claim9_fifo_order_and_blocking_witness :
    SupervisorResource.read ⟨[⟨1, []⟩, ⟨1, []⟩], [], none⟩ ⟨0, 1⟩
      (List.replicate 40 0) = none ∧
    ∃ k1 k2 k3 k4,
      SupervisorResource.write ⟨[⟨1, []⟩, ⟨1, []⟩], [], none⟩ ⟨1, 0⟩
        (List.replicate 40 1) = (k1, Except.ok PACKET_SIZE) ∧
      SupervisorResource.write k1 ⟨1, 0⟩ (List.replicate 40 2) =
        (k2, Except.ok PACKET_SIZE) ∧
      SupervisorResource.read k2 ⟨0, 1⟩ (List.replicate 40 0) =
        some (k3, List.replicate 40 1, Except.ok PACKET_SIZE) ∧
      SupervisorResource.read k3 ⟨0, 1⟩ (List.replicate 40 0) =
        some (k4, List.replicate 40 2, Except.ok PACKET_SIZE) :=
  claim9_fifo_order_and_blocking _ ⟨0, 1⟩ ⟨1, 0⟩ (List.replicate 40 1)
    (List.replicate 40 2) (List.replicate 40 0) ⟨1, []⟩
    rfl rfl rfl rfl rfl (by decide) rfl

/-- C10: with a packet-sized buffer, whenever read returns it returns
Ok(PACKET_SIZE) with the buffer wholly overwritten by the received packet
(the head of the recv queue) — the error branch is unreachable; and when
the recv queue's strong owner is gone (peer side of that queue dropped),
read blocks instead of returning any error. -/
theorem claim10_read_safety (k : Kernel) (e : SupervisorResource)
    (buf : List Nat) (hwf : KernelWF k) (hlen : buf.length = PACKET_SIZE) :
    (∀ k2 buf2 res, SupervisorResource.read k e buf = some (k2, buf2, res) →
      res = Except.ok PACKET_SIZE ∧ buf2.length = PACKET_SIZE ∧
      ∃ q rest, k.queues[e.recv]? = some q ∧ q.items = buf2 :: rest) ∧
    (∀ q, k.queues[e.recv]? = some q → q.strong = 0 →
      SupervisorResource.read k e buf = none) := by
  constructor
  · intro k2 buf2 res hread
    unfold SupervisorResource.read at hread
    rw [if_pos hlen] at hread
    cases hrecv : receiveQ k.queues e.recv with
    | none => rw [hrecv] at hread; simp at hread
    | some ph =>
      obtain ⟨p, hh⟩ := ph
      rw [hrecv] at hread
      simp only [Option.some.injEq, Prod.mk.injEq] at hread
      obtain ⟨hk2, hbuf2, hres⟩ := hread
      obtain ⟨q, rest, hq, hitems⟩ := receiveQ_some _ _ _ _ hrecv
      have hplen : p.length = PACKET_SIZE :=
        (hwf q (mem_of_heap_lookup _ _ _ hq)).1 p
          (by rw [hitems]; exact List.mem_cons_self _ _)
      have hcopy : copyInto buf p = p :=
        copyInto_eq_of_len _ _ (by rw [hlen, hplen])
      refine ⟨hres.symm, ?_, q, rest, hq, ?_⟩
      · rw [← hbuf2, hcopy, hplen]
      · rw [hitems, ← hbuf2, hcopy]
  · intro q hq hstrong
    have hempty := (hwf q (mem_of_heap_lookup _ _ _ hq)).2 hstrong
    simp [SupervisorResource.read, hlen, receiveQ, hq, hempty]

/-- C10 witness: on a concrete queue holding one packet, read returns
Ok(PACKET_SIZE) and the final buffer is exactly that pending packet. -/
theorem claim10_read_safety_witness :
    (Except.ok PACKET_SIZE : Except Nat Nat) = Except.ok PACKET_SIZE ∧
    (List.replicate 40 3).length = PACKET_SIZE ∧
    ∃ q rest,
      ([(⟨1, [List.replicate 40 3]⟩ : WaitQueue)] : List WaitQueue)[(0 : Nat)]? = some q ∧
      q.items = List.replicate 40 3 :: rest :=
  (claim10_read_safety ⟨[⟨1, [List.replicate 40 3]⟩], [], none⟩ ⟨0, 0⟩
      (List.replicate 40 0) (by unfold KernelWF QueueWF; decide) rfl).1
    ⟨[⟨1, []⟩], [], none⟩ (List.replicate 40 3) (Except.ok PACKET_SIZE) rfl
